import Mathlib

/-!
Verification development for the `flerhek` RAG-assistant repository.

Strings are modelled as `List Char` (`Str`) for the ingestion utilities, and as
Lean `String` for the conversation orchestrator, where string contents are
mostly opaque.  Python integer sizes are modelled as `Nat` (every call site in
the repository passes non-negative sizes).  Fallible Python code (assertion
failures, tuple-unpacking `ValueError`s, non-terminating loops cut off by
fuel) is modelled with `Except String` / `Option`.
-/

namespace Flerhek

abbrev Str := List Char

/-! ## Text splitter (`src/flare_ai_rag/utils/splitter.py`) -/

/-- Characters removed by Python `str.strip()` (the ASCII whitespace set;
the source corpus is ASCII). -/
def pyIsSpace (c : Char) : Bool :=
  c == ' ' || c == '\t' || c == '\n' || c == '\r' || c == '\x0b' || c == '\x0c'

/-- Python `s.strip()`: drop whitespace from both ends. -/
def pyStrip (s : Str) : Str :=
  ((s.dropWhile pyIsSpace).reverse.dropWhile pyIsSpace).reverse

/-- Python slice `s[a:b]` for `0 ≤ a ≤ b`. -/
def sliceL (s : Str) (a b : Nat) : Str :=
  (s.drop a).take (b - a)

/-- Python `s.find(sub, start, stop)`: smallest absolute index `j` with
`start ≤ j`, `j + |sub| ≤ min stop |s|`, and `sub` occurring at `j`;
`none` models the return value `-1`. -/
def pyFind (s sub : Str) (start stop : Nat) : Option Nat :=
  (List.range' start (min stop s.length + 1 - sub.length - start)).find? fun j =>
    sub.isPrefixOf (s.drop j)

/-- The separator-scanning loop of `data_split`: try each separator in
priority order, keep the first hit (`for sep in seps: j = content.find(...)`;
`if j != -1: break`). -/
def findFirstSep (s : Str) (seps : List Str) (start stop : Nat) : Option Nat :=
  seps.findSome? fun sep => pyFind s sep start stop

/-- The chunk end `j` computed by one iteration of the `data_split` loop:
the first separator found in the window
`[i + chunk_size - 2*overlap, i + chunk_size)`, or the hard cut
`i + chunk_size - overlap` if none is found (`if j == -1`). -/
def cutJ (content : Str) (seps : List Str) (cs ov i : Nat) : Nat :=
  (findFirstSep content seps (i + cs - 2 * ov) (i + cs)).getD (i + cs - ov)

/-- The realigned next start of the `data_split` loop: `ii = j - overlap`,
then try to snap to a separator within `[ii - overlap/4, ii + overlap/4)`;
if none is found, use `ii` itself. -/
def nextI (content : Str) (seps : List Str) (cs ov i : Nat) : Nat :=
  (findFirstSep content seps (cutJ content seps cs ov i - ov - ov / 4)
    (cutJ content seps cs ov i - ov + ov / 4)).getD
    (cutJ content seps cs ov i - ov)

/-- The `while len(content) - i > chunk_size` loop of
`src/flare_ai_rag/utils/splitter.py::data_split`, with explicit fuel
(the Python loop does not terminate for `chunk_size = 0` on non-empty
content, which the fuel cutoff models as `none`).  Each iteration emits
`content[i:j].strip()` and advances `i`; on exit the remainder
`content[i:].strip()` is appended. -/
def splitLoop (content : Str) (seps : List Str) (cs ov : Nat) :
    Nat → Nat → Option (List Str)
  | 0, _ => none
  | fuel + 1, i =>
    if i + cs < content.length then
      (splitLoop content seps cs ov fuel (nextI content seps cs ov i)).map
        (pyStrip (sliceL content i (cutJ content seps cs ov i)) :: ·)
    else
      some [pyStrip (content.drop i)]

/-- Index-level mirror of `splitLoop`: records the untrimmed slice
boundaries `(i, j)` of each emitted chunk instead of the trimmed text. -/
def splitLoopIdx (content : Str) (seps : List Str) (cs ov : Nat) :
    Nat → Nat → Option (List (Nat × Nat))
  | 0, _ => none
  | fuel + 1, i =>
    if i + cs < content.length then
      (splitLoopIdx content seps cs ov fuel (nextI content seps cs ov i)).map
        ((i, cutJ content seps cs ov i) :: ·)
    else
      some [(i, content.length)]

/-- Generic fallback separators appended by `data_split`
(`seps = seps + ["\n\n", "\n", " "]`). -/
def genericSeps : List Str :=
  ["\n\n".toList, "\n".toList, " ".toList]

/-- Message of the `assert overlap * 4 <= chunk_size` statement. -/
def overlapAssertMsg : String :=
  "Overlap is too large compared to max_chunk_size"

/-- `src/flare_ai_rag/utils/splitter.py::data_split` (Python defaults:
`chunk_size = 10000`, `overlap = 1000`).  The assertion failure and the
(unreachable for valid parameters) fuel exhaustion are modelled as errors. -/
def data_split (content : Str) (seps : List Str) (cs ov : Nat) :
    Except String (List Str) :=
  if ov * 4 ≤ cs then
    match splitLoop content (seps ++ genericSeps) cs ov (content.length + 1) 0 with
    | some r => .ok r
    | none => .error "nontermination"
  else
    .error overlapAssertMsg

/-- Slice boundaries corresponding to the chunks emitted by `data_split`. -/
def splitIdx (content : Str) (seps : List Str) (cs ov : Nat) :
    Option (List (Nat × Nat)) :=
  splitLoopIdx content (seps ++ genericSeps) cs ov (content.length + 1) 0

/-- Concatenation of consecutive slices with their mutual overlap removed:
the first slice `content[i:b₀]` is taken whole, and every later slice
contributes only the part `content[b_prev:b]` beyond the previous slice's
end, i.e. its overlap with the previous slice is dropped. -/
def joinFrom (s : Str) : Nat → List (Nat × Nat) → Str
  | _, [] => []
  | i, (_, b) :: rest => sliceL s i b ++ joinFrom s b rest

/-- Bounded existential checker for the round-trip reading of the spec:
can the original text be rebuilt by concatenating the chunks after removing
some prefix (the claimed overlap) from each chunk?  Dropping a prefix is
allowed on every chunk, which makes the check strictly more generous than
"first chunk whole, later chunks with overlap removed". -/
def reconTail (s : Str) : List Str → Bool
  | [] => s.isEmpty
  | c :: rest =>
    (List.range (c.length + 1)).any fun d =>
      (c.drop d).isPrefixOf s && reconTail (s.drop (c.length - d)) rest

/-- Whether the emitted chunks, each with some prefix ("their overlap")
removed, concatenate back to exactly `content`. -/
def reconstructs (content : Str) (chunks : List Str) : Bool :=
  reconTail content chunks

deriving instance DecidableEq for Except

/-! ## Document chunk extractor (`src/flare_ai_rag/utils/data_maker.py`) -/

/-- Python `s.upper()` (ASCII). -/
def pyUpper (s : Str) : Str := s.map Char.toUpper

/-- Python `s.lower()` (ASCII). -/
def pyLower (s : Str) : Str := s.map Char.toLower

/-- Python `s.lstrip(chars)`: drop leading characters belonging to the set. -/
def pyLstrip (s : Str) (chars : List Char) : Str :=
  s.dropWhile (fun c => chars.contains c)

/-- Python `s.split(sep, 1)` when it yields exactly two parts: the text
before the first occurrence of `sep` and the text after it; `none` when
`sep` does not occur (in which case 2-tuple unpacking raises). -/
def splitOnceAt (s sep : Str) : Option (Str × Str) :=
  match pyFind s sep 0 s.length with
  | some j => some (s.take j, s.drop (j + sep.length))
  | none => none

/-- Python `s.split(sep, 2)` when it yields exactly three parts; `none`
when `sep` occurs fewer than twice (3-tuple unpacking raises). -/
def pySplit2 (s sep : Str) : Option (Str × Str × Str) :=
  match splitOnceAt s sep with
  | none => none
  | some (a, r) =>
    match splitOnceAt r sep with
    | none => none
    | some (b, c) => some (a, b, c)

/-- A chunk record as built by `get_data` (Python dict with keys
`content`, `meta_data`, `file_name`, `type`).  Metadata values are the
already-rendered strings interpolated by `format_metadata`. -/
structure DataBlock where
  content : Str
  meta_data : List (Str × Str)
  file_name : Str
  tag : Str
deriving DecidableEq, Repr

/-- Python dict assignment `m[k] = v`: replace in place if the key exists
(insertion order is preserved), else append. -/
def dictSet (m : List (Str × Str)) (k v : Str) : List (Str × Str) :=
  if m.any (fun kv => kv.1 == k) then
    m.map (fun kv => if kv.1 == k then (k, v) else kv)
  else
    m ++ [(k, v)]

/-- Python `m.update(upd)` over insertion-ordered dicts. -/
def dictUpdate (m upd : List (Str × Str)) : List (Str × Str) :=
  upd.foldl (fun acc kv => dictSet acc kv.1 kv.2) m

/-- `data_maker.py::format_metadata`: each key upper-cased with its value,
one per line, wrapped in a `<metadata>` block. -/
def format_metadata (m : List (Str × Str)) : Str :=
  "<metadata>\n".toList ++
    (m.map (fun kv => pyUpper kv.1 ++ ": ".toList ++ kv.2 ++ "\n".toList)).flatten ++
    "</metadata>\n\n".toList

/-- `data_maker.py::metadatadize`: prepend the rendered metadata header to
each block's content. -/
def metadatadize (out : List DataBlock) : List DataBlock :=
  out.map fun b => { b with content := format_metadata b.meta_data ++ b.content }

/-- The post-filter at the end of `get_data`: keep a block exactly when its
content length is at least 30 and strictly below 20000 (`if len < 30:
continue`, `if len >= 20000: continue`). -/
def lengthFilter (r : List DataBlock) : List DataBlock :=
  r.filter fun b => decide (30 ≤ b.content.length ∧ b.content.length < 20000)

/-- Metadata keys retained by the markdown branch of `get_data`. -/
def usefulMetadata : List Str :=
  ["file_name".toList, "description".toList, "keywords".toList,
   "tags".toList, "title".toList]

/-- Markdown heading separators used by the `.md`/`.mdx` branch. -/
def mdSeps : List Str := ["\n# ".toList, "\n## ".toList, "\n### ".toList]

/-- Language-specific separators of the code branch of `get_data`
(the `seps` dict looked up at the matched extension). -/
def codeSeps (extension : Str) : List Str :=
  if extension = ".js".toList then
    ["\nfunction".toList, "\nclass".toList, "\nconst".toList,
     "\nlet".toList, "\nvar".toList]
  else if extension = ".sol".toList then
    ["\ncontract".toList, "\nfunction".toList, "\nmodifier".toList,
     "\nevent".toList, "\nstruct".toList]
  else
    ["\ndef".toList, "\nclass".toList]

/-- The markdown front-matter step of `get_data`: if the content starts
with `---`, split off the front-matter block, merge its parsed key/value
pairs (the third-party `yaml.safe_load` is abstracted by the `yamlParse`
argument) into the metadata, and strip the remaining content.  Fewer than
two `---` occurrences make the 3-tuple unpacking raise `ValueError`. -/
def mdFrontmatter (yamlParse : Str → List (Str × Str))
    (meta : List (Str × Str)) (content : Str) :
    Except String (List (Str × Str) × Str) :=
  if "---".toList.isPrefixOf content then
    match pySplit2 content "---".toList with
    | some (_, mdata, rest) => .ok (dictUpdate meta (yamlParse mdata), pyStrip rest)
    | none => .error "ValueError: not enough values to unpack"
  else
    .ok (meta, content)

/-- The level-1 heading step of `get_data`: if the content starts with
`"# "`, split off the first line as the title (stripping leading `#`/space
characters), record it in the metadata, and strip the remaining content.
A single-line file makes the 2-tuple unpacking raise `ValueError`. -/
def mdTitle (meta : List (Str × Str)) (content : Str) :
    Except String (List (Str × Str) × Str) :=
  if "# ".toList.isPrefixOf content then
    match splitOnceAt content "\n".toList with
    | some (t, rest) =>
      .ok (dictSet meta "title".toList (pyLstrip t ['#', ' ']), pyStrip rest)
    | none => .error "ValueError: not enough values to unpack"
  else
    .ok (meta, content)

/-- The pre-filter record list `r` built by
`src/flare_ai_rag/utils/data_maker.py::get_data`, branching on the file
extension.  File reading and path handling are abstracted: `extension` is
`file.suffix`, `content` is `file.read_text()`, and `file_name` the
path relative to the base.  Note that the fallback branch for other
extensions stores the whole file `content` in every record, while looping
over the split `section`s — exactly as the source does. -/
def get_data_r (yamlParse : Str → List (Str × Str)) (extension content
    file_name : Str) (overlap : Nat) : Except String (List DataBlock) :=
  let chunk_size := 10 * overlap
  let meta0 : List (Str × Str) := [("file_name".toList, file_name)]
  if extension = ".mdx".toList ∨ extension = ".md".toList then
    match mdFrontmatter yamlParse meta0 content with
    | .error e => .error e
    | .ok (meta1, content1) =>
      match mdTitle meta1 content1 with
      | .error e => .error e
      | .ok (meta2, content2) =>
        let meta3 := meta2.filter fun kv => usefulMetadata.contains (pyLower kv.1)
        match data_split content2 mdSeps chunk_size overlap with
        | .error e => .error e
        | .ok sections =>
          .ok (sections.map fun sec => ⟨sec, meta3, file_name, "answer".toList⟩)
  else if extension = ".js".toList ∨ extension = ".sol".toList ∨
      extension = ".py".toList then
    match data_split content (codeSeps extension) chunk_size overlap with
    | .error e => .error e
    | .ok sections =>
      .ok (sections.map fun sec => ⟨sec, meta0, file_name, "code".toList⟩)
  else
    match data_split content [] chunk_size overlap with
    | .error e => .error e
    | .ok sections =>
      .ok (sections.map fun _ => ⟨content, meta0, file_name, "answer".toList⟩)

/-- `get_data` as seen by callers: the branch output, length-filtered, then
wrapped by the `metadatadize` decorator which prepends the metadata header
(Python default `overlap = 900`). -/
def get_data (yamlParse : Str → List (Str × Str)) (extension content
    file_name : Str) (overlap : Nat) : Except String (List DataBlock) :=
  match get_data_r yamlParse extension content file_name overlap with
  | .error e => .error e
  | .ok r => .ok (metadatadize (lengthFilter r))

/-! ## Code corpus reader (`src/flare_ai_rag/utils/code_data_reader.py`) -/

/-- A metadata value of the code reader: a string or a list of strings. -/
inductive MetaVal where
  | s (v : Str)
  | l (vs : List Str)
deriving DecidableEq, Repr

/-- One parsed element of the contracts JSON array, projected to the fields
the reader consults (`none` models a missing key). -/
structure ContractItem where
  sourceCode : Option Str
  additionalSources : Option (List Str)
  fileName : Option Str
  address : Option Str
deriving DecidableEq, Repr

/-- A record emitted by `get_code_data` (keys `content`, `metadata`,
`file_name`, `type`). -/
structure CodeRecord where
  content : Str
  metadata : List (Str × MetaVal)
  file_name : Str
  tag : Str
deriving DecidableEq, Repr

/-- The metadata dict built for one contract item, in insertion order. -/
def codeItemMeta (item : ContractItem) : List (Str × MetaVal) :=
  (match item.additionalSources with
   | some l => [("additional_sources".toList, MetaVal.l l)]
   | none => []) ++
  (match item.fileName with
   | some fn => [("file_name".toList, MetaVal.s fn)]
   | none => []) ++
  (match item.address with
   | some a => [("address".toList, MetaVal.s a)]
   | none => [])

/-- Solidity-oriented separators used by `get_code_data`. -/
def solSeps : List Str :=
  ["\ncontract".toList, "\nfunction".toList, "\nmodifier".toList,
   "\nevent".toList, "\nstruct".toList]

/-- The `for item in code` loop of `get_code_data`, carrying the
accumulated record list `r`.  The hardcoded `if len(r) > 500: break`
stops processing further items once more than 500 records have
accumulated; a contract is skipped when it has no `SourceCode` or when
`metadata.get("file_name")` is falsy (missing or empty). -/
def get_code_data_loop (ov : Nat) :
    List ContractItem → List CodeRecord → Except String (List CodeRecord)
  | [], r => .ok r
  | item :: rest, r =>
    if 500 < r.length then .ok r
    else
      match item.sourceCode with
      | none => get_code_data_loop ov rest r
      | some content =>
        match item.fileName with
        | none => get_code_data_loop ov rest r
        | some [] => get_code_data_loop ov rest r
        | some fn =>
          match data_split content solSeps (10 * ov) ov with
          | .error e => .error e
          | .ok sections =>
            get_code_data_loop ov rest
              (r ++ sections.map fun sec =>
                ⟨sec, codeItemMeta item, fn, "code".toList⟩)

/-- `src/flare_ai_rag/utils/code_data_reader.py::get_code_data`
(Python default `overlap = 900`); JSON file loading is abstracted into the
already-parsed `items` list. -/
def get_code_data (items : List ContractItem) (ov : Nat) :
    Except String (List CodeRecord) :=
  get_code_data_loop ov items []

/-- The number of records one contract item contributes when it is
processed (0 when it is skipped or its split fails). -/
def itemSections (ov : Nat) (item : ContractItem) : Nat :=
  match item.sourceCode with
  | none => 0
  | some content =>
    match item.fileName with
    | none => 0
    | some [] => 0
    | some _ =>
      match data_split content solSeps (10 * ov) ov with
      | .error _ => 0
      | .ok sections => sections.length

/-! ## Conversation orchestrator (`src/flare_ai_rag/api/routes/base.py`) -/

/-- Semantic routes (`prompts.schemas.SemanticRouterResponse`). -/
inductive SemanticRouterResponse where
  | RAG_ROUTER
  | REQUEST_ATTESTATION
  | CONVERSATIONAL
deriving DecidableEq, Repr

/-- One observable call made by the RAG pipeline to a collaborating
component: a retriever `semantic_search` or a responder
`generate_response`.  The trace of these calls is threaded through the
embedding to state frame properties. -/
inductive Call where
  | search (collection : String) (query : String) (top_k : Nat)
  | respond (message : String) (history : List String) (docs : List String)
deriving DecidableEq, Repr

/-- The collaborating components of `BaseRouter`, abstracted as pure
functions: the semantic router (`get_semantic_route`, which already
recovers from classification failures by defaulting to `CONVERSATIONAL`,
hence total), the query classifier (`query_router.route_query` applied to
the prompt rendered from message and history), the retriever
(`semantic_search`), the responder, the chat capability (`send_message`),
the generated attestation-request prose, and the attestation token call
(`Vtpm.get_token`, whose `VtpmAttestationError` carries a message). -/
structure Env where
  semanticRoute : String → List String → SemanticRouterResponse
  classify : String → List String → String
  retrieve : String → String → Nat → List String
  respond : String → List String → List String → String
  sendMessage : String → String → String
  attestationText : String
  getToken : List String → Except String String

/-- The mutable state of a `BaseRouter` instance: the per-user history map
(`self.histories`, defaulting to `[]` for unknown users) and the
attestation-pending flag (`self.attestation.attestation_requested`). -/
structure RouterState where
  histories : String → List String
  attestation_requested : Bool

/-- Python `l[-n:]`. -/
def lastN (n : Nat) (l : List α) : List α :=
  l.drop (l.length - n)

/-- The history write `self.histories[user_id] = history[-20:] + [message]`
performed at the end of a successful non-attestation turn. -/
def updateHistories (h : String → List String) (user_id message : String) :
    String → List String :=
  fun u => if u = user_id then lastN 20 (h user_id) ++ [message] else h u

/-- The combined retrieval query of the RAG pipeline:
`"\n\n".join(history) + "\n\n" + message`. -/
def ragQuery (history : List String) (message : String) : String :=
  String.intercalate "\n\n" history ++ "\n\n" ++ message

/-- Python `s.lower()` on a Lean `String` (ASCII), at the level of the
character data so that it reduces on literals. -/
def pyLowerS (s : String) : String :=
  String.mk (s.data.map Char.toLower)

/-- The local `classification_type = classification.lower()` of
`handle_rag_pipeline`. -/
def classification_type (env : Env) (message : String)
    (history : List String) : String :=
  pyLowerS (env.classify message history)

/-- The local `other_type = "code" if classification_type == "answer"
else "answer"` of `handle_rag_pipeline`. -/
def other_type (env : Env) (message : String) (history : List String) : String :=
  if classification_type env message history = "answer" then "code" else "answer"

/-- The local `documents = retrieved_docs + retrieved_docs_other` of
`handle_rag_pipeline`: 5 results from the collection matching the
classification followed by 2 from the other collection. -/
def ragDocuments (env : Env) (message : String)
    (history : List String) : List String :=
  env.retrieve (classification_type env message history)
      (ragQuery history message) 5 ++
    env.retrieve (other_type env message history) (ragQuery history message) 2

/-- `BaseRouter.handle_rag_pipeline`: classify the query; an unrecognized
label raises `ValueError(classification)`; `REJECT` short-circuits with
the fixed out-of-scope response and no retrieval; otherwise retrieve 5
documents from the classification-matching collection and 2 from the
other, concatenate (classified type first) and call the responder. -/
def handle_rag_pipeline (env : Env) (message : String)
    (history : List String) :
    Except String (List (String × String) × List Call) :=
  if env.classify message history ∉ (["CODE", "ANSWER", "REJECT"] : List String) then
    .error (env.classify message history)
  else if env.classify message history = "REJECT" then
    .ok ([("classification", "REJECT"),
          ("response", "The query is out of scope.")], [])
  else
    .ok ([("classification", env.classify message history),
          ("response", env.respond message history
            (ragDocuments env message history))],
         [Call.search (classification_type env message history)
            (ragQuery history message) 5,
          Call.search (other_type env message history)
            (ragQuery history message) 2,
          Call.respond message history (ragDocuments env message history)])

/-- `BaseRouter.generate_response`: one conversation turn.  If an
attestation is pending, the message is consumed as the attestation
payload, the flag is cleared either way, and the turn returns without
touching the history; otherwise the message is routed and, on success,
the history for this user is trimmed to its 20 most recent entries and
the message appended.  Errors (the unknown-classification `ValueError`)
are re-raised to the caller. -/
def generate_response (env : Env) (σ : RouterState)
    (message user_id : String) :
    Except String (List (String × String) × RouterState × List Call) :=
  let history := σ.histories user_id
  if σ.attestation_requested then
    let resp := match env.getToken [message] with
      | .ok t => t
      | .error e => "The attestation failed with error:\n" ++ e
    .ok ([("response", resp)], ⟨σ.histories, false⟩, [])
  else
    match env.semanticRoute message history with
    | .RAG_ROUTER =>
      match handle_rag_pipeline env message history with
      | .error e => .error e
      | .ok (resp, calls) =>
        .ok (resp, ⟨updateHistories σ.histories user_id message,
                    σ.attestation_requested⟩, calls)
    | .REQUEST_ATTESTATION =>
      .ok ([("response", env.attestationText)],
           ⟨updateHistories σ.histories user_id message, true⟩, [])
    | .CONVERSATIONAL =>
      .ok ([("response", env.sendMessage message user_id)],
           ⟨updateHistories σ.histories user_id message,
            σ.attestation_requested⟩, [])

/-- Sequential turns of one user against the orchestrator. -/
def runTurns (env : Env) (σ : RouterState) (user_id : String) :
    List String → Except String RouterState
  | [] => .ok σ
  | m :: ms =>
    match generate_response env σ m user_id with
    | .error e => .error e
    | .ok (_, σ2, _) => runTurns env σ2 user_id ms

/-! ## Concrete inputs used by counterexamples and witnesses -/

/-- A constant-oracle environment for concrete runs. -/
def env0 : Env where
  semanticRoute := fun _ _ => .CONVERSATIONAL
  classify := fun _ _ => "ANSWER"
  retrieve := fun _ _ _ => []
  respond := fun _ _ _ => "answer"
  sendMessage := fun _ _ => "ok"
  attestationText := "attestation requested"
  getToken := fun _ => .ok "token"

/-- The initial orchestrator state: no histories, no pending attestation. -/
def state0 : RouterState := ⟨fun _ => [], false⟩

/-- Twenty-five pairwise distinct messages. -/
def msgs25 : List String := (List.range 25).map toString

/-- Length of the stored history of user `"u"` after 25 sequential
conversational turns (0 if the run failed). -/
def histLenAfter25 : Nat :=
  match runTurns env0 state0 "u" msgs25 with
  | .ok σ => (σ.histories "u").length
  | .error _ => 0

/-- Concrete input on which the round-trip half of claim C3 fails:
the splitter trims whitespace from both ends of every chunk, so the
double spaces of the original content survive in no chunk and no
removal of per-chunk overlaps can rebuild the original. -/
def c3content : Str := "ab  cd  ef".toList

/-- The chunks `data_split` emits for `c3content` with `chunk_size = 4`,
`overlap = 1`. -/
def c3chunks : List Str :=
  ["ab".toList, "b".toList, "c".toList, "cd".toList, "d".toList, "ef".toList]

/-- The single record produced by `get_data` for a 30-character `.txt`
file named `t.txt` (used by the C2 witness). -/
def c2outBlock : DataBlock :=
  ⟨"<metadata>\nFILE_NAME: t.txt\n</metadata>\n\n".toList ++ List.replicate 30 'a',
   [("file_name".toList, "t.txt".toList)], "t.txt".toList, "answer".toList⟩

/-- An environment whose semantic router always requests attestation and
whose token issuance always fails with message `boom`. -/
def env7 : Env :=
  { env0 with
    semanticRoute := fun _ _ => .REQUEST_ATTESTATION
    getToken := fun _ => .error "boom" }

/-- An orchestrator state with the attestation-pending flag set. -/
def stateAtt : RouterState := ⟨fun _ => [], true⟩

/-- The response text produced for the turn consuming the attestation
payload when token issuance fails with message `boom`. -/
def c7resp : String :=
  match generate_response env7 stateAtt "payload" "u" with
  | .ok (kvs, _, _) =>
    match kvs with
    | [(_, r)] => r
    | _ => ""
  | .error _ => ""

/-- An environment routing everything to the RAG pipeline and classifying
every query `REJECT`. -/
def env8 : Env :=
  { env0 with
    semanticRoute := fun _ _ => .RAG_ROUTER
    classify := fun _ _ => "REJECT" }

/-- An environment routing everything to the RAG pipeline, classifying
every query `CODE`, with a retriever returning exactly `top_k` results. -/
def env9 : Env :=
  { env0 with
    semanticRoute := fun _ _ => .RAG_ROUTER
    classify := fun _ _ => "CODE"
    retrieve := fun c q k => List.replicate k (c ++ q) }

/-- A minimal contract item: one-character source, file name `f`. -/
def c10item : ContractItem := ⟨some ['a'], none, some ['f'], none⟩

/-- The single record `get_code_data` emits for `c10item`. -/
def c10rec : CodeRecord :=
  ⟨['a'], codeItemMeta c10item, ['f'], "code".toList⟩

/-- A 71-character `.txt` file content that splits into two chunks with
`chunk_size = 40`, `overlap = 4` (used to exhibit the fallback-branch
bug of claim C6). -/
def c6content : Str :=
  List.replicate 40 'a' ++ [' '] ++ List.replicate 30 'b'

/-- First chunk `data_split` emits for `c6content`. -/
def c6chunk1 : Str := List.replicate 36 'a'

/-- Second chunk `data_split` emits for `c6content`. -/
def c6chunk2 : Str := List.replicate 8 'a' ++ [' '] ++ List.replicate 30 'b'

/-- Metadata dict of the `t.txt` file of the C6 run. -/
def c6meta : List (Str × Str) := [("file_name".toList, "t.txt".toList)]

/-- The record `get_data` actually emits (twice) for the C6 input: its
content is the whole file, not a chunk. -/
def c6block : DataBlock :=
  ⟨format_metadata c6meta ++ c6content, c6meta, "t.txt".toList, "answer".toList⟩

/-! ## Lemmas about Python string primitives -/

theorem dropWhile_dropWhile (p : Char → Bool) (l : Str) :
    (l.dropWhile p).dropWhile p = l.dropWhile p := by
  induction l with
  | nil => rfl
  | cons a t ih =>
    by_cases h : p a
    · simp [List.dropWhile_cons, h, ih]
    · simp [List.dropWhile_cons, h]

theorem head?_dropWhile (p : Char → Bool) (l : Str) (a : Char)
    (h : (l.dropWhile p).head? = some a) : p a = false := by
  induction l with
  | nil => simp at h
  | cons x t ih =>
    by_cases hx : p x
    · rw [List.dropWhile_cons, if_pos hx] at h
      exact ih h
    · rw [List.dropWhile_cons, if_neg hx] at h
      simp at h
      simpa [h] using hx

theorem dropWhile_of_head? (p : Char → Bool) (l : Str)
    (h : ∀ a, l.head? = some a → p a = false) : l.dropWhile p = l := by
  cases l with
  | nil => rfl
  | cons a t =>
    rw [List.dropWhile_cons, if_neg]
    simp [h a rfl]

theorem getLast?_of_suffix {l₁ l₂ : Str} (h : l₁ <:+ l₂) (hne : l₁ ≠ []) :
    l₁.getLast? = l₂.getLast? := by
  obtain ⟨pre, rfl⟩ := h
  rw [List.getLast?_append_of_ne_nil _ hne]

theorem pyStrip_dropWhile (s : Str) : (pyStrip s).dropWhile pyIsSpace = pyStrip s := by
  unfold pyStrip
  by_cases hu : ((s.dropWhile pyIsSpace).reverse.dropWhile pyIsSpace) = []
  · rw [hu]; rfl
  apply dropWhile_of_head? _ _
  intro a ha
  rw [List.head?_reverse] at ha
  have h1 : ((s.dropWhile pyIsSpace).reverse.dropWhile pyIsSpace).getLast? =
      (s.dropWhile pyIsSpace).reverse.getLast? :=
    getLast?_of_suffix (List.dropWhile_suffix _) hu
  rw [h1, List.getLast?_reverse] at ha
  exact head?_dropWhile pyIsSpace s a ha

theorem pyStrip_idem (s : Str) : pyStrip (pyStrip s) = pyStrip s := by
  calc pyStrip (pyStrip s)
      = (((pyStrip s).dropWhile pyIsSpace).reverse.dropWhile pyIsSpace).reverse := rfl
    _ = ((pyStrip s).reverse.dropWhile pyIsSpace).reverse := by
        rw [pyStrip_dropWhile]
    _ = ((((s.dropWhile pyIsSpace).reverse.dropWhile pyIsSpace).reverse.reverse).dropWhile
          pyIsSpace).reverse := rfl
    _ = pyStrip s := by
        rw [List.reverse_reverse, dropWhile_dropWhile]
        rfl

/-! ## Bounds of the splitter's cut computations -/

theorem pyFind_bounds {s sub : Str} {start stop j : Nat}
    (h : pyFind s sub start stop = some j) :
    start ≤ j ∧ j ≤ min stop s.length := by
  unfold pyFind at h
  have hm := List.mem_of_find?_eq_some h
  rw [List.mem_range'_1] at hm
  omega

theorem findFirstSep_bounds {s : Str} {seps : List Str} {start stop j : Nat}
    (h : findFirstSep s seps start stop = some j) :
    start ≤ j ∧ j ≤ min stop s.length := by
  unfold findFirstSep at h
  obtain ⟨sep, _, hf⟩ := List.exists_of_findSome?_eq_some h
  exact pyFind_bounds hf

theorem cutJ_bounds (content : Str) (seps : List Str) (cs ov i : Nat) :
    i + cs - 2 * ov ≤ cutJ content seps cs ov i ∧
      cutJ content seps cs ov i ≤ i + cs := by
  unfold cutJ
  cases h : findFirstSep content seps (i + cs - 2 * ov) (i + cs) with
  | none => simp; omega
  | some j =>
    have := findFirstSep_bounds h
    simp only [Option.getD_some]
    omega

theorem nextI_bounds (content : Str) (seps : List Str) (cs ov i : Nat)
    (h4 : ov * 4 ≤ cs) (h1 : 1 ≤ cs) :
    cutJ content seps cs ov i - ov - ov / 4 ≤ nextI content seps cs ov i ∧
      nextI content seps cs ov i ≤ cutJ content seps cs ov i := by
  have hc := cutJ_bounds content seps cs ov i
  unfold nextI
  cases h : findFirstSep content seps
      (cutJ content seps cs ov i - ov - ov / 4)
      (cutJ content seps cs ov i - ov + ov / 4) with
  | none => simp only [Option.getD_none]; omega
  | some jj =>
    have := findFirstSep_bounds h
    simp only [Option.getD_some]
    omega

theorem nextI_progress (content : Str) (seps : List Str) (cs ov i : Nat)
    (h4 : ov * 4 ≤ cs) (h1 : 1 ≤ cs) :
    i + 1 ≤ nextI content seps cs ov i := by
  have hc := cutJ_bounds content seps cs ov i
  have hn := nextI_bounds content seps cs ov i h4 h1
  omega

/-! ## Termination and structure of the splitter loop -/

theorem splitLoop_isSome (content : Str) (seps : List Str) (cs ov : Nat)
    (h4 : ov * 4 ≤ cs) (h1 : 1 ≤ cs) :
    ∀ fuel i, 1 ≤ fuel → content.length < i + cs + fuel →
      (splitLoop content seps cs ov fuel i).isSome := by
  intro fuel
  induction fuel with
  | zero => omega
  | succ f ih =>
    intro i _ hlen
    rw [splitLoop]
    by_cases hc : i + cs < content.length
    · rw [if_pos hc, Option.isSome_map']
      have hp := nextI_progress content seps cs ov i h4 h1
      exact ih (nextI content seps cs ov i) (by omega) (by omega)
    · rw [if_neg hc]
      rfl

theorem splitLoop_eq_idx (content : Str) (seps : List Str) (cs ov : Nat) :
    ∀ fuel i, splitLoop content seps cs ov fuel i =
      (splitLoopIdx content seps cs ov fuel i).map
        (List.map fun p => pyStrip (sliceL content p.1 p.2)) := by
  intro fuel
  induction fuel with
  | zero => intro i; rfl
  | succ f ih =>
    intro i
    rw [splitLoop, splitLoopIdx]
    by_cases hc : i + cs < content.length
    · rw [if_pos hc, if_pos hc, ih, Option.map_map, Option.map_map]
      rfl
    · rw [if_neg hc, if_neg hc]
      simp only [Option.map_some', List.map_cons, List.map_nil]
      have : sliceL content i content.length = content.drop i := by
        unfold sliceL
        rw [← List.length_drop]
        exact List.take_length _
      rw [this]

theorem splitLoopIdx_isSome (content : Str) (seps : List Str) (cs ov : Nat)
    (h4 : ov * 4 ≤ cs) (h1 : 1 ≤ cs) :
    ∀ fuel i, 1 ≤ fuel → content.length < i + cs + fuel →
      (splitLoopIdx content seps cs ov fuel i).isSome := by
  intro fuel i hf hlen
  have h := splitLoop_isSome content seps cs ov h4 h1 fuel i hf hlen
  rw [splitLoop_eq_idx, Option.isSome_map'] at h
  exact h

theorem sliceL_append_drop (s : Str) (a b : Nat) (hab : a ≤ b) :
    sliceL s a b ++ s.drop b = s.drop a := by
  unfold sliceL
  have h1 : s.drop b = (s.drop a).drop (b - a) := by
    rw [List.drop_drop]
    congr 1
    omega
  rw [h1, List.take_append_drop]

theorem drop_of_join (s : Str) (a b c : Nat) (J : Str) (hab : a ≤ b)
    (hbc : b ≤ c) (hcl : c ≤ s.length)
    (h : sliceL s a c ++ J = s.drop a) :
    sliceL s b c ++ J = s.drop b := by
  have hlen : (sliceL s a c).length = c - a := by
    unfold sliceL
    rw [List.length_take, List.length_drop]
    omega
  have := congrArg (List.drop (b - a)) h
  rw [List.drop_append_eq_append_drop, hlen] at this
  rw [show b - a - (c - a) = 0 from by omega, List.drop_zero] at this
  have h2 : (sliceL s a c).drop (b - a) = sliceL s b c := by
    unfold sliceL
    rw [List.drop_take, List.drop_drop]
    congr 1
    · omega
    · congr 1
      omega
  rw [h2] at this
  rw [this, List.drop_drop]
  congr 1
  omega

theorem splitLoopIdx_cover (content : Str) (seps : List Str) (cs ov : Nat)
    (h4 : ov * 4 ≤ cs) (h1 : 1 ≤ cs) :
    ∀ fuel i ps, i ≤ content.length →
      splitLoopIdx content seps cs ov fuel i = some ps →
      joinFrom content i ps = content.drop i ∧
      ∃ b rest, ps = (i, b) :: rest ∧ i ≤ b ∧ b ≤ content.length ∧
        (b = content.length ∨ i + cs - 2 * ov ≤ b) := by
  intro fuel
  induction fuel with
  | zero => intro i ps _ h; exact absurd h (by rw [splitLoopIdx]; simp)
  | succ f ih =>
    intro i ps hil h
    rw [splitLoopIdx] at h
    by_cases hc : i + cs < content.length
    · rw [if_pos hc] at h
      cases hrec : splitLoopIdx content seps cs ov f (nextI content seps cs ov i) with
      | none => rw [hrec] at h; exact absurd h (by simp)
      | some ps2 =>
        rw [hrec, Option.map_some'] at h
        have hcj := cutJ_bounds content seps cs ov i
        have hni := nextI_bounds content seps cs ov i h4 h1
        have hj2 : nextI content seps cs ov i ≤ content.length := by omega
        obtain ⟨hjoin2, b2, rest2, hps2, hib2, hb2l, hb2c⟩ :=
          ih (nextI content seps cs ov i) ps2 hj2 hrec
        have hjb2 : cutJ content seps cs ov i ≤ b2 := by
          rcases hb2c with hb2c | hb2c <;> omega
        have hps : ps = (i, cutJ content seps cs ov i) :: ps2 :=
          (Option.some_inj.mp h).symm
        subst hps
        refine ⟨?_, cutJ content seps cs ov i, ps2, rfl, by omega,
          by omega, Or.inr (by omega)⟩
        rw [joinFrom, hps2, joinFrom]
        rw [hps2, joinFrom] at hjoin2
        have hdj := drop_of_join content (nextI content seps cs ov i)
          (cutJ content seps cs ov i) b2 (joinFrom content b2 rest2)
          (by omega) hjb2 hb2l hjoin2
        rw [hdj]
        exact sliceL_append_drop content i (cutJ content seps cs ov i) (by omega)
    · rw [if_neg hc, Option.some_inj] at h
      subst h
      constructor
      · rw [joinFrom, joinFrom, List.append_nil]
        unfold sliceL
        rw [← List.length_drop]
        exact List.take_length _
      · exact ⟨content.length, [], rfl, hil, le_refl _, Or.inl rfl⟩

theorem splitLoop_mem (content : Str) (seps : List Str) (cs ov : Nat) :
    ∀ fuel i r, splitLoop content seps cs ov fuel i = some r →
      ∀ c ∈ r, ∃ x, c = pyStrip x := by
  intro fuel
  induction fuel with
  | zero => intro i r h; exact absurd h (by rw [splitLoop]; simp)
  | succ f ih =>
    intro i r h c hcm
    rw [splitLoop] at h
    by_cases hc : i + cs < content.length
    · rw [if_pos hc] at h
      cases hrec : splitLoop content seps cs ov f (nextI content seps cs ov i) with
      | none => rw [hrec] at h; exact absurd h (by simp)
      | some r2 =>
        rw [hrec, Option.map_some'] at h
        have hr := (Option.some_inj.mp h).symm
        subst hr
        rcases List.mem_cons.mp hcm with hcm | hcm
        · exact ⟨_, hcm⟩
        · exact ih (nextI content seps cs ov i) r2 hrec c hcm
    · rw [if_neg hc, Option.some_inj] at h
      subst h
      rcases List.mem_singleton.mp hcm with rfl
      exact ⟨_, rfl⟩

/-! ## Claims about the text splitter -/

/-- Claim C4: calling `data_split` with `overlap * 4 > chunk_size` always
fails (with the assertion error) before producing any output chunk, for
every content string and separator list. -/
theorem claim_C4 (content : Str) (seps : List Str) (cs ov : Nat)
    (h : cs < ov * 4) :
    data_split content seps cs ov = .error overlapAssertMsg := by
  unfold data_split
  rw [if_neg (by omega)]

/-- Witness for C4 at a concrete input: `chunk_size = 3`, `overlap = 1`. -/
theorem claim_C4_witness :
    (3 : Nat) < 1 * 4 ∧
      data_split "abc".toList [] 3 1 = .error overlapAssertMsg :=
  ⟨by norm_num, claim_C4 "abc".toList [] 3 1 (by norm_num)⟩

/-- Claim C5: for every content, separator list and parameters with
`overlap * 4 ≤ chunk_size` and `chunk_size` positive, `data_split`
terminates and returns a finite list of trimmed strings (strings fixed by
`strip`); the underlying loop makes strict progress each iteration
(`nextI_progress`), which is what makes the fuel bound sufficient. -/
theorem claim_C5 (content : Str) (seps : List Str) (cs ov : Nat)
    (h4 : ov * 4 ≤ cs) (h1 : 1 ≤ cs) :
    ∃ r, data_split content seps cs ov = .ok r ∧ ∀ c ∈ r, pyStrip c = c := by
  unfold data_split
  rw [if_pos h4]
  have hs := splitLoop_isSome content (seps ++ genericSeps) cs ov h4 h1
    (content.length + 1) 0 (by omega) (by omega)
  cases hr : splitLoop content (seps ++ genericSeps) cs ov
      (content.length + 1) 0 with
  | none => rw [hr] at hs; exact absurd hs (by simp)
  | some r =>
    refine ⟨r, rfl, fun c hc => ?_⟩
    obtain ⟨x, rfl⟩ := splitLoop_mem content (seps ++ genericSeps) cs ov
      (content.length + 1) 0 r hr c hc
    exact pyStrip_idem x

/-- Witness for C5 at a concrete input. -/
theorem claim_C5_witness :
    ((2 : Nat) * 4 ≤ 9 ∧ (1 : Nat) ≤ 9) ∧
      ∃ r, data_split "hello brave new world".toList [] 9 2 = .ok r ∧
        ∀ c ∈ r, pyStrip c = c :=
  ⟨⟨by norm_num, by norm_num⟩,
   claim_C5 "hello brave new world".toList [] 9 2 (by norm_num) (by norm_num)⟩

/-- Counterexample to claim C3 as stated: for this content (longer than
`chunk_size`, with `overlap * 4 ≤ chunk_size`), no way of removing a
prefix ("their overlap") from the emitted chunks reconstructs the
original content. -/
theorem claim_C3_counterexample :
    (4 : Nat) < c3content.length ∧ (1 : Nat) * 4 ≤ 4 ∧
      data_split c3content [] 4 1 = .ok c3chunks ∧
      reconstructs c3content c3chunks = false := by
  refine ⟨by decide, by decide, by decide, by decide⟩

/-- Claim C3, amended: the round trip holds at the level of the untrimmed
slices.  For content at most `chunk_size` long exactly one chunk is
emitted, equal to the trimmed original.  For longer content the emitted
chunks are the whitespace-trimmed forms of consecutive overlapping slices
of the content, and concatenating those untrimmed slices with each one's
overlap with its predecessor removed (`joinFrom`) reconstructs the
original content exactly. -/
theorem claim_C3 (content : Str) (seps : List Str) (cs ov : Nat)
    (h4 : ov * 4 ≤ cs) (h1 : 1 ≤ cs) :
    (content.length ≤ cs → data_split content seps cs ov = .ok [pyStrip content]) ∧
    (cs < content.length →
      ∃ ps, splitIdx content seps cs ov = some ps ∧
        data_split content seps cs ov =
          .ok (ps.map fun p => pyStrip (sliceL content p.1 p.2)) ∧
        joinFrom content 0 ps = content) := by
  constructor
  · intro hlen
    unfold data_split
    rw [if_pos h4, splitLoop, if_neg (by omega), List.drop_zero]
  · intro hlen
    have hs := splitLoopIdx_isSome content (seps ++ genericSeps) cs ov h4 h1
      (content.length + 1) 0 (by omega) (by omega)
    cases hi : splitLoopIdx content (seps ++ genericSeps) cs ov
        (content.length + 1) 0 with
    | none => rw [hi] at hs; exact absurd hs (by simp)
    | some ps =>
      obtain ⟨hjoin, -⟩ := splitLoopIdx_cover content (seps ++ genericSeps)
        cs ov h4 h1 (content.length + 1) 0 ps (by omega) hi
      refine ⟨ps, hi, ?_, by rw [hjoin, List.drop_zero]⟩
      unfold data_split
      rw [if_pos h4, splitLoop_eq_idx, hi, Option.map_some']

/-- Witness for C3 at concrete inputs exercising both halves. -/
theorem claim_C3_witness :
    ((1 : Nat) * 4 ≤ 4 ∧ (1 : Nat) ≤ 4) ∧
      ((("hi".toList : Str).length ≤ 4 →
        data_split "hi".toList [] 4 1 = .ok [pyStrip "hi".toList]) ∧
       (4 < ("ab cd ef".toList : Str).length →
        ∃ ps, splitIdx "ab cd ef".toList [] 4 1 = some ps ∧
          data_split "ab cd ef".toList [] 4 1 =
            .ok (ps.map fun p => pyStrip (sliceL "ab cd ef".toList p.1 p.2)) ∧
          joinFrom "ab cd ef".toList 0 ps = "ab cd ef".toList)) :=
  ⟨⟨by norm_num, by norm_num⟩,
   (claim_C3 "hi".toList [] 4 1 (by norm_num) (by norm_num)).1,
   (claim_C3 "ab cd ef".toList [] 4 1 (by norm_num) (by norm_num)).2⟩

/-! ## Claims about the document chunk extractor -/

theorem pyStrip_replicate (n : Nat) (c : Char) (h : pyIsSpace c = false) :
    pyStrip (List.replicate n c) = List.replicate n c := by
  have hdw : ∀ m, (List.replicate m c).dropWhile pyIsSpace = List.replicate m c := by
    intro m
    cases m with
    | zero => rfl
    | succ k =>
      rw [List.replicate_succ, List.dropWhile_cons, if_neg (by simp [h])]
  rw [pyStrip, hdw, List.reverse_replicate, hdw, List.reverse_replicate]

theorem not_prefix_replicate_a (pre : Str) (hc : ∃ c t, pre = c :: t ∧ (c == 'a') = false)
    (n : Nat) (h1 : 1 ≤ n) :
    pre.isPrefixOf (List.replicate n 'a') = false := by
  obtain ⟨c, t, rfl, hne⟩ := hc
  cases n with
  | zero => omega
  | succ k =>
    rw [List.replicate_succ]
    simp only [List.isPrefixOf, hne, Bool.false_and]

/-- Claim C2, amended: every record returned by `get_data` has content
equal to its rendered metadata header followed by a body whose length
lies in `[30, 20000)`.  The length filter runs before the header is
prepended, so the stored content is at least 30 characters long, but its
total length (with the header) is not bounded by 20000. -/
theorem claim_C2 (yamlParse : Str → List (Str × Str))
    (extension content file_name : Str) (ov : Nat) (out : List DataBlock)
    (h : get_data yamlParse extension content file_name ov = .ok out) :
    ∀ b ∈ out, ∃ body, b.content = format_metadata b.meta_data ++ body ∧
      30 ≤ body.length ∧ body.length < 20000 := by
  unfold get_data at h
  cases hr : get_data_r yamlParse extension content file_name ov with
  | error e => rw [hr] at h; exact absurd h (by simp)
  | ok r =>
    rw [hr] at h
    have hout : out = metadatadize (lengthFilter r) := (Except.ok.injEq _ _ ▸ h).symm
    subst hout
    intro b hb
    obtain ⟨x, hxmem, rfl⟩ := List.mem_map.mp hb
    have hxf := List.mem_filter.mp hxmem
    have hp := of_decide_eq_true hxf.2
    exact ⟨x.content, rfl, hp.1, hp.2⟩

/-- Witness for C2 at a concrete input: a 30-character `.txt` file. -/
theorem claim_C2_witness :
    get_data (fun _ => []) ".txt".toList (List.replicate 30 'a')
        "t.txt".toList 900 = .ok [c2outBlock] ∧
    ∀ b ∈ [c2outBlock], ∃ body, b.content = format_metadata b.meta_data ++ body ∧
      30 ≤ body.length ∧ body.length < 20000 :=
  ⟨by decide,
   claim_C2 (fun _ => []) ".txt".toList (List.replicate 30 'a')
     "t.txt".toList 900 [c2outBlock] (by decide)⟩

theorem get_data_md_replicate (yamlParse : Str → List (Str × Str))
    (n ov : Nat) (fn : Str) (h1 : 1 ≤ n) (hn : n ≤ 10 * ov)
    (hk30 : 30 ≤ n) (hk2 : n < 20000) :
    get_data yamlParse ".md".toList (List.replicate n 'a') fn ov =
      .ok [⟨format_metadata [("file_name".toList, fn)] ++ List.replicate n 'a',
            [("file_name".toList, fn)], fn, "answer".toList⟩] := by
  have hpre1 : ("---".toList).isPrefixOf (List.replicate n 'a') = false :=
    not_prefix_replicate_a _ ⟨'-', _, rfl, by decide⟩ n h1
  have hpre2 : ("# ".toList).isPrefixOf (List.replicate n 'a') = false :=
    not_prefix_replicate_a _ ⟨'#', _, rfl, by decide⟩ n h1
  have hstrip : pyStrip (List.replicate n 'a') = List.replicate n 'a' :=
    pyStrip_replicate n 'a' (by decide)
  have hsplit : data_split (List.replicate n 'a') mdSeps (10 * ov) ov =
      .ok [List.replicate n 'a'] := by
    unfold data_split
    rw [if_pos (by omega), splitLoop,
      if_neg (by rw [List.length_replicate]; omega), List.drop_zero, hstrip]
  have hmeta : usefulMetadata.contains (pyLower "file_name".toList) = true := by
    decide
  unfold get_data get_data_r mdFrontmatter mdTitle
  rw [if_pos (Or.inr rfl)]
  simp only [hpre1, hpre2, Bool.false_eq_true, if_false, hsplit,
    List.filter_cons, List.filter_nil, hmeta, if_true, List.map_cons,
    List.map_nil, lengthFilter, metadatadize]
  rw [if_pos (by rw [decide_eq_true_eq, List.length_replicate]; omega)]
  simp only [List.map_cons, List.map_nil]

/-- Counterexample to claim C2 as stated: a 19999-character `.md` file
(split with `overlap = 2000`, hence `chunk_size = 20000`) passes the
length filter, and prepending the 40-character metadata header then
yields a returned record whose content length is 20039 ≥ 20000. -/
theorem claim_C2_counterexample :
    ∃ out, get_data (fun _ => []) ".md".toList (List.replicate 19999 'a')
        "f.md".toList 2000 = .ok out ∧
      ∃ b ∈ out, b.content.length = 20039 ∧ ¬ b.content.length < 20000 := by
  have h := get_data_md_replicate (fun _ => []) 19999 2000 "f.md".toList
    (by norm_num) (by norm_num) (by norm_num) (by norm_num)
  refine ⟨_, h, _, List.mem_singleton.mpr rfl, ?_, ?_⟩
  · show (format_metadata [("file_name".toList, "f.md".toList)] ++
        List.replicate 19999 'a').length = 20039
    rw [List.length_append, List.length_replicate,
      show (format_metadata [("file_name".toList, "f.md".toList)]).length = 40
        from by decide]
  · show ¬ (format_metadata [("file_name".toList, "f.md".toList)] ++
        List.replicate 19999 'a').length < 20000
    rw [List.length_append, List.length_replicate,
      show (format_metadata [("file_name".toList, "f.md".toList)]).length = 40
        from by decide]
    norm_num

/-- Claim C6's failing input, evaluated: for a `.txt` file (an extension
outside `.md`/`.mdx`/`.js`/`.sol`/`.py`) whose content splits into the
two chunks `c6chunk1`/`c6chunk2`, `get_data` emits one record per chunk
but every record carries the whole file content (header + `c6content`),
not the chunk: the fallback branch appends `content` where the parallel
branches append `section`. -/
theorem claim_C6 :
    data_split c6content [] 40 4 = .ok [c6chunk1, c6chunk2] ∧
    get_data (fun _ => []) ".txt".toList c6content "t.txt".toList 4 =
      .ok [c6block, c6block] ∧
    c6block.content = format_metadata c6meta ++ c6content ∧
    c6block.content ≠ format_metadata c6meta ++ c6chunk1 ∧
    c6block.content ≠ format_metadata c6meta ++ c6chunk2 := by
  refine ⟨by decide, by decide, by decide, by decide, by decide⟩

/-! ## Claims about the code corpus reader -/

theorem c10_loop : ∀ k acc, acc.length + k ≤ 501 →
    get_code_data_loop 900 (List.replicate k c10item) acc =
      .ok (acc ++ List.replicate k c10rec) := by
  intro k
  induction k with
  | zero =>
    intro acc _
    simp only [List.replicate_zero, List.append_nil]
    rfl
  | succ j ih =>
    intro acc hacc
    have hds : data_split ['a'] solSeps (10 * 900) 900 = .ok [['a']] := by decide
    rw [List.replicate_succ, get_code_data_loop, if_neg (by omega)]
    show get_code_data_loop 900 (List.replicate j c10item) (acc ++ [c10rec]) = _
    rw [ih (acc ++ [c10rec]) (by rw [List.length_append]; simpa using by omega),
      List.append_assoc, List.singleton_append, List.replicate_succ]

theorem itemSections_of_ok (ov : Nat) (item : ContractItem) (content : Str)
    (c : Char) (t : Str) (sections : List Str)
    (hsc : item.sourceCode = some content)
    (hfn : item.fileName = some (c :: t))
    (hds : data_split content solSeps (10 * ov) ov = .ok sections) :
    itemSections ov item = sections.length := by
  unfold itemSections
  simp only [hsc, hfn, hds]

theorem c10_bound (ov : Nat) : ∀ (items : List ContractItem)
    (acc r : List CodeRecord), get_code_data_loop ov items acc = .ok r →
    r.length ≤ max acc.length (500 + (items.map (itemSections ov)).foldr max 0) := by
  intro items
  induction items with
  | nil =>
    intro acc r h
    have : r = acc := by
      rw [get_code_data_loop] at h
      exact (Except.ok.injEq _ _ ▸ h).symm
    subst this
    exact le_max_left _ _
  | cons item rest ih =>
    intro acc r h
    rw [get_code_data_loop] at h
    by_cases hlen : 500 < acc.length
    · rw [if_pos hlen] at h
      have : r = acc := (Except.ok.injEq _ _ ▸ h).symm
      subst this
      exact le_max_left _ _
    · rw [if_neg hlen] at h
      have hM : (rest.map (itemSections ov)).foldr max 0 ≤
          ((item :: rest).map (itemSections ov)).foldr max 0 := by
        rw [List.map_cons, List.foldr_cons]
        exact le_max_right _ _
      cases hsc : item.sourceCode with
      | none =>
        simp only [hsc] at h
        have := ih acc r h
        omega
      | some content =>
        simp only [hsc] at h
        cases hfn : item.fileName with
        | none =>
          simp only [hfn] at h
          have := ih acc r h
          omega
        | some l =>
          cases l with
          | nil =>
            simp only [hfn] at h
            have := ih acc r h
            omega
          | cons cch ct =>
            simp only [hfn] at h
            cases hds : data_split content solSeps (10 * ov) ov with
            | error e =>
              rw [hds] at h
              exact absurd h (by simp)
            | ok sections =>
              rw [hds] at h
              have hrec := ih _ r h
              rw [List.length_append, List.length_map] at hrec
              have hitem := itemSections_of_ok ov item content cch ct sections
                hsc hfn hds
              have hub : itemSections ov item ≤
                  ((item :: rest).map (itemSections ov)).foldr max 0 := by
                rw [List.map_cons, List.foldr_cons]
                exact le_max_left _ _
              omega

/-- Claim C10, amended: the safety cap of `get_code_data` is the hardcoded
constant 500, not caller-specified, and it is soft: contract items stop
being processed once more than 500 records have accumulated, so the
emitted list is bounded by 500 plus the largest per-item chunk count (and
can therefore exceed 500). -/
theorem claim_C10 (items : List ContractItem) (ov : Nat)
    (r : List CodeRecord) (h : get_code_data items ov = .ok r) :
    r.length ≤ 500 + (items.map (itemSections ov)).foldr max 0 := by
  have := c10_bound ov items [] r h
  simpa using this

/-- Witness for C10 at a concrete input. -/
theorem claim_C10_witness :
    get_code_data [c10item] 900 = .ok [c10rec] ∧
      ([c10rec] : List CodeRecord).length ≤
        500 + ([c10item].map (itemSections 900)).foldr max 0 :=
  ⟨by decide, claim_C10 [c10item] 900 [c10rec] (by decide)⟩

/-- Counterexample to claim C10 as stated: there is no cap parameter in
`get_code_data`, and a run over 501 one-chunk contracts emits 501
records, exceeding even the hardcoded 500-record safety check (which is
only consulted before an item is processed). -/
theorem claim_C10_counterexample :
    get_code_data (List.replicate 501 c10item) 900 =
      .ok (List.replicate 501 c10rec) ∧
    (List.replicate 501 c10rec).length = 501 ∧
    ¬ (List.replicate 501 c10rec).length ≤ 500 := by
  refine ⟨?_, ?_, ?_⟩
  · have h := c10_loop 501 [] (by norm_num)
    rw [List.nil_append] at h
    exact h
  · rw [List.length_replicate]
  · rw [List.length_replicate]
    norm_num

/-! ## Lemmas about the history window -/

theorem lastN_eq_reverse_take {α : Type} (n : Nat) (l : List α) :
    lastN n l = (l.reverse.take n).reverse :=
  List.rtake_eq_reverse_take_reverse l n

theorem lastN_length {α : Type} (n : Nat) (l : List α) :
    (lastN n l).length = min n l.length := by
  unfold lastN
  rw [List.length_drop]
  omega

theorem lastN_concat {α : Type} (n : Nat) (l : List α) (x : α) :
    lastN (n + 1) (l ++ [x]) = lastN n l ++ [x] :=
  List.rtake_concat_succ l n x

theorem lastN_succ_append {α : Type} (n : Nat) (xs ys : List α)
    (h : 1 ≤ ys.length) :
    lastN (n + 1) (lastN n xs ++ ys) = lastN (n + 1) (xs ++ ys) := by
  rw [lastN_eq_reverse_take (n + 1), lastN_eq_reverse_take (n + 1),
    lastN_eq_reverse_take n]
  rw [List.reverse_append, List.reverse_append, List.reverse_reverse]
  rw [List.take_append_eq_append_take, List.take_append_eq_append_take]
  rw [List.take_take, List.length_reverse]
  rw [min_eq_left (by omega : n + 1 - ys.length ≤ n)]

theorem histStep_foldl (msgs : List String) :
    ∀ h : List String, msgs ≠ [] →
      msgs.foldl (fun acc m2 => lastN 20 acc ++ [m2]) h =
        lastN 21 (h ++ msgs) := by
  induction msgs with
  | nil => intro h hne; exact absurd rfl hne
  | cons m ms ih =>
    intro h _
    rw [List.foldl_cons]
    cases hms : ms with
    | nil =>
      rw [List.foldl_nil]
      exact (lastN_concat 20 h m).symm
    | cons m2 ms2 =>
      rw [← hms, ih (lastN 20 h ++ [m]) (by rw [hms]; simp)]
      rw [List.append_assoc, List.singleton_append]
      rw [lastN_succ_append 20 h (m :: ms) (by simp)]

/-! ## Single-turn behaviour of the orchestrator -/

theorem turn_ok (env : Env) (σ : RouterState) (m uid : String)
    (hflag : σ.attestation_requested = false)
    (hroute : ∀ x h, env.semanticRoute x h ≠ .REQUEST_ATTESTATION)
    (hclass : ∀ x h, env.classify x h ∈ (["CODE", "ANSWER", "REJECT"] : List String)) :
    ∃ resp calls, generate_response env σ m uid =
      .ok (resp, ⟨updateHistories σ.histories uid m, false⟩, calls) := by
  unfold generate_response
  rw [hflag]
  simp only [Bool.false_eq_true, if_false]
  cases hr : env.semanticRoute m (σ.histories uid) with
  | RAG_ROUTER =>
    unfold handle_rag_pipeline
    have hc := hclass m (σ.histories uid)
    rw [if_neg (not_not_intro hc)]
    by_cases hrej : env.classify m (σ.histories uid) = "REJECT"
    · rw [if_pos hrej]
      exact ⟨_, _, rfl⟩
    · rw [if_neg hrej]
      exact ⟨_, _, rfl⟩
  | REQUEST_ATTESTATION => exact absurd hr (hroute m (σ.histories uid))
  | CONVERSATIONAL =>
    exact ⟨_, _, rfl⟩

theorem runTurns_fold (env : Env) (uid : String)
    (hroute : ∀ x h, env.semanticRoute x h ≠ .REQUEST_ATTESTATION)
    (hclass : ∀ x h, env.classify x h ∈ (["CODE", "ANSWER", "REJECT"] : List String)) :
    ∀ (msgs : List String) (σ0 : RouterState),
      σ0.attestation_requested = false →
      ∃ σ1, runTurns env σ0 uid msgs = .ok σ1 ∧
        σ1.attestation_requested = false ∧
        σ1.histories uid =
          msgs.foldl (fun acc m2 => lastN 20 acc ++ [m2]) (σ0.histories uid) := by
  intro msgs
  induction msgs with
  | nil => intro σ0 hflag; exact ⟨σ0, rfl, hflag, rfl⟩
  | cons m ms ih =>
    intro σ0 hflag
    obtain ⟨resp, calls, hgen⟩ := turn_ok env σ0 m uid hflag hroute hclass
    obtain ⟨σ1, hrun, hfl1, hh1⟩ :=
      ih ⟨updateHistories σ0.histories uid m, false⟩ rfl
    refine ⟨σ1, ?_, hfl1, ?_⟩
    · rw [runTurns, hgen]
      exact hrun
    · rw [hh1, List.foldl_cons]
      congr 1
      show updateHistories σ0.histories uid m uid = _
      unfold updateHistories
      rw [if_pos rfl]

/-! ## Claims about the conversation orchestrator -/

/-- Claim C1, amended: the per-user history retained by
`generate_response` is capped at 21 entries, not 20: each successful
non-attestation turn stores the previous history trimmed to its 20 most
recent entries plus the current message.  After any non-empty run of
successful non-attestation turns the stored history is the last 21
elements of (previous history ++ messages); in particular after 25
sequential turns from one user it has exactly 21 entries, the 21 most
recent. -/
theorem claim_C1 (env : Env) (σ0 : RouterState) (uid : String)
    (msgs : List String)
    (hflag : σ0.attestation_requested = false)
    (hroute : ∀ x h, env.semanticRoute x h ≠ .REQUEST_ATTESTATION)
    (hclass : ∀ x h, env.classify x h ∈ (["CODE", "ANSWER", "REJECT"] : List String))
    (hne : msgs ≠ []) :
    ∃ σ1, runTurns env σ0 uid msgs = .ok σ1 ∧
      σ1.histories uid = lastN 21 (σ0.histories uid ++ msgs) ∧
      (σ1.histories uid).length ≤ 21 ∧
      (21 ≤ (σ0.histories uid).length + msgs.length →
        (σ1.histories uid).length = 21) := by
  obtain ⟨σ1, hrun, _, hh⟩ := runTurns_fold env uid hroute hclass msgs σ0 hflag
  rw [histStep_foldl msgs (σ0.histories uid) hne] at hh
  refine ⟨σ1, hrun, hh, ?_, ?_⟩
  · rw [hh, lastN_length]
    omega
  · intro h21
    rw [hh, lastN_length, List.length_append]
    omega

/-- Witness for C1 at a concrete run of 25 turns. -/
theorem claim_C1_witness :
    (state0.attestation_requested = false ∧ msgs25 ≠ []) ∧
      ∃ σ1, runTurns env0 state0 "u" msgs25 = .ok σ1 ∧
        σ1.histories "u" = lastN 21 (state0.histories "u" ++ msgs25) ∧
        (σ1.histories "u").length ≤ 21 ∧
        (21 ≤ (state0.histories "u").length + msgs25.length →
          (σ1.histories "u").length = 21) :=
  ⟨⟨rfl, by decide⟩,
   claim_C1 env0 state0 "u" msgs25 rfl (fun x h => by simp [env0])
     (fun x h => by simp [env0]) (by decide)⟩

/-- Counterexample to claim C1 as stated: after 25 sequential
conversational turns the stored history has 21 entries, not at most 20
(`history[-20:] + [message]` keeps up to 21 elements). -/
theorem claim_C1_counterexample :
    histLenAfter25 = 21 ∧ ¬ histLenAfter25 ≤ 20 := by
  refine ⟨by decide, by decide⟩

/-- Claim C7, amended: the attestation handler sets the pending flag and
returns the generated explanatory text; on the next call the incoming
message is consumed as the attestation payload, the flag is cleared
whether token issuance succeeds or fails, history is untouched on that
branch, and a token-issuance failure does not raise: it returns, as the
response text, the fixed prefix `"The attestation failed with error:\n"`
followed by the failure's message (not the bare message itself). -/
theorem claim_C7 (env : Env) (σ : RouterState) (m m2 uid : String) :
    (σ.attestation_requested = false →
      env.semanticRoute m (σ.histories uid) = .REQUEST_ATTESTATION →
      generate_response env σ m uid =
        .ok ([("response", env.attestationText)],
             ⟨updateHistories σ.histories uid m, true⟩, [])) ∧
    (σ.attestation_requested = true →
      (∀ t, env.getToken [m2] = .ok t →
        generate_response env σ m2 uid =
          .ok ([("response", t)], ⟨σ.histories, false⟩, [])) ∧
      (∀ e, env.getToken [m2] = .error e →
        generate_response env σ m2 uid =
          .ok ([("response", "The attestation failed with error:\n" ++ e)],
               ⟨σ.histories, false⟩, []))) := by
  refine ⟨?_, ?_⟩
  · intro hflag hroute
    unfold generate_response
    rw [hflag]
    simp only [Bool.false_eq_true, if_false, hroute]
  · intro hflag
    refine ⟨?_, ?_⟩
    · intro t ht
      unfold generate_response
      rw [hflag, if_pos rfl, ht]
    · intro e he
      unfold generate_response
      rw [hflag, if_pos rfl, he]

/-- Witness for C7: both halves of the round trip at concrete inputs. -/
theorem claim_C7_witness :
    generate_response env7 state0 "please attest" "u" =
      .ok ([("response", env7.attestationText)],
           ⟨updateHistories state0.histories "u" "please attest", true⟩, []) ∧
    generate_response env7 stateAtt "payload" "u" =
      .ok ([("response", "The attestation failed with error:\n" ++ "boom")],
           ⟨stateAtt.histories, false⟩, []) :=
  ⟨(claim_C7 env7 state0 "please attest" "payload" "u").1 rfl rfl,
   ((claim_C7 env7 stateAtt "please attest" "payload" "u").2 rfl).2 "boom" rfl⟩

/-- Counterexample to claim C7 as stated: the failure response is not the
failure's message itself but the message under a fixed prefix. -/
theorem claim_C7_counterexample :
    c7resp = "The attestation failed with error:\nboom" ∧ c7resp ≠ "boom" := by
  refine ⟨by decide, by decide⟩

/-- Claim C8: a `REJECT` classification short-circuits the RAG pipeline:
the fixed out-of-scope response is returned, the call trace is empty (no
retriever and no responder call), the attestation flag is unchanged, and
the only state change is this user's history update. -/
theorem claim_C8 (env : Env) (σ : RouterState) (m uid : String)
    (hflag : σ.attestation_requested = false)
    (hroute : env.semanticRoute m (σ.histories uid) = .RAG_ROUTER)
    (hrej : env.classify m (σ.histories uid) = "REJECT") :
    generate_response env σ m uid =
      .ok ([("classification", "REJECT"),
            ("response", "The query is out of scope.")],
           ⟨updateHistories σ.histories uid m, false⟩, []) ∧
    (∀ u, u ≠ uid → updateHistories σ.histories uid m u = σ.histories u) ∧
    updateHistories σ.histories uid m uid = lastN 20 (σ.histories uid) ++ [m] := by
  refine ⟨?_, ?_, ?_⟩
  · unfold generate_response
    rw [hflag]
    simp only [Bool.false_eq_true, if_false, hroute]
    unfold handle_rag_pipeline
    rw [if_neg (not_not_intro (by rw [hrej]; decide)), if_pos hrej]
  · intro u hu
    unfold updateHistories
    rw [if_neg hu]
  · unfold updateHistories
    rw [if_pos rfl]

/-- Witness for C8 at a concrete rejected query. -/
theorem claim_C8_witness :
    generate_response env8 state0 "How is the weather today?" "u" =
      .ok ([("classification", "REJECT"),
            ("response", "The query is out of scope.")],
           ⟨updateHistories state0.histories "u" "How is the weather today?",
            false⟩, []) ∧
    (∀ u, u ≠ "u" →
      updateHistories state0.histories "u" "How is the weather today?" u =
        state0.histories u) ∧
    updateHistories state0.histories "u" "How is the weather today?" "u" =
      lastN 20 (state0.histories "u") ++ ["How is the weather today?"] :=
  claim_C8 env8 state0 "How is the weather today?" "u" rfl rfl rfl

/-- Claim C9: a `CODE` classification retrieves with `top_k = 5` from the
`code` collection and `top_k = 2` from the `answer` collection, in that
order, and hands the responder their concatenation with the code results
first; when the retriever returns exactly `top_k` results, that is 5
results followed by 2.  Symmetrically for an `ANSWER` classification. -/
theorem claim_C9 (env : Env) (σ : RouterState) (m uid : String)
    (hflag : σ.attestation_requested = false)
    (hroute : env.semanticRoute m (σ.histories uid) = .RAG_ROUTER) :
    (env.classify m (σ.histories uid) = "CODE" →
      generate_response env σ m uid =
        .ok ([("classification", "CODE"),
              ("response", env.respond m (σ.histories uid)
                (env.retrieve "code" (ragQuery (σ.histories uid) m) 5 ++
                 env.retrieve "answer" (ragQuery (σ.histories uid) m) 2))],
             ⟨updateHistories σ.histories uid m, false⟩,
             [Call.search "code" (ragQuery (σ.histories uid) m) 5,
              Call.search "answer" (ragQuery (σ.histories uid) m) 2,
              Call.respond m (σ.histories uid)
                (env.retrieve "code" (ragQuery (σ.histories uid) m) 5 ++
                 env.retrieve "answer" (ragQuery (σ.histories uid) m) 2)]) ∧
      ((env.retrieve "code" (ragQuery (σ.histories uid) m) 5).length = 5 →
        (env.retrieve "answer" (ragQuery (σ.histories uid) m) 2).length = 2 →
        (env.retrieve "code" (ragQuery (σ.histories uid) m) 5 ++
          env.retrieve "answer" (ragQuery (σ.histories uid) m) 2).length = 7 ∧
        (env.retrieve "code" (ragQuery (σ.histories uid) m) 5 ++
          env.retrieve "answer" (ragQuery (σ.histories uid) m) 2).take 5 =
          env.retrieve "code" (ragQuery (σ.histories uid) m) 5 ∧
        (env.retrieve "code" (ragQuery (σ.histories uid) m) 5 ++
          env.retrieve "answer" (ragQuery (σ.histories uid) m) 2).drop 5 =
          env.retrieve "answer" (ragQuery (σ.histories uid) m) 2)) ∧
    (env.classify m (σ.histories uid) = "ANSWER" →
      generate_response env σ m uid =
        .ok ([("classification", "ANSWER"),
              ("response", env.respond m (σ.histories uid)
                (env.retrieve "answer" (ragQuery (σ.histories uid) m) 5 ++
                 env.retrieve "code" (ragQuery (σ.histories uid) m) 2))],
             ⟨updateHistories σ.histories uid m, false⟩,
             [Call.search "answer" (ragQuery (σ.histories uid) m) 5,
              Call.search "code" (ragQuery (σ.histories uid) m) 2,
              Call.respond m (σ.histories uid)
                (env.retrieve "answer" (ragQuery (σ.histories uid) m) 5 ++
                 env.retrieve "code" (ragQuery (σ.histories uid) m) 2)])) := by
  refine ⟨fun hcl => ⟨?_, fun h5 h2 => ?_⟩, fun hcl => ?_⟩
  · have hct : classification_type env m (σ.histories uid) = "code" := by
      unfold classification_type
      rw [hcl]
      decide
    have hot : other_type env m (σ.histories uid) = "answer" := by
      unfold other_type
      rw [hct]
      decide
    have hdocs : ragDocuments env m (σ.histories uid) =
        env.retrieve "code" (ragQuery (σ.histories uid) m) 5 ++
          env.retrieve "answer" (ragQuery (σ.histories uid) m) 2 := by
      unfold ragDocuments
      rw [hct, hot]
    unfold generate_response
    rw [hflag]
    simp only [Bool.false_eq_true, if_false, hroute]
    unfold handle_rag_pipeline
    rw [if_neg (not_not_intro (by rw [hcl]; decide)),
      if_neg (by rw [hcl]; decide), hcl, hct, hot, hdocs]
  · refine ⟨?_, ?_, ?_⟩
    · rw [List.length_append, h5, h2]
    · exact List.take_left' h5
    · exact List.drop_left' h5
  · have hct : classification_type env m (σ.histories uid) = "answer" := by
      unfold classification_type
      rw [hcl]
      decide
    have hot : other_type env m (σ.histories uid) = "code" := by
      unfold other_type
      rw [hct]
      decide
    have hdocs : ragDocuments env m (σ.histories uid) =
        env.retrieve "answer" (ragQuery (σ.histories uid) m) 5 ++
          env.retrieve "code" (ragQuery (σ.histories uid) m) 2 := by
      unfold ragDocuments
      rw [hct, hot]
    unfold generate_response
    rw [hflag]
    simp only [Bool.false_eq_true, if_false, hroute]
    unfold handle_rag_pipeline
    rw [if_neg (not_not_intro (by rw [hcl]; decide)),
      if_neg (by rw [hcl]; decide), hcl, hct, hot, hdocs]

/-- Witness for C9 at a concrete `CODE` query with a retriever returning
exactly `top_k` results. -/
theorem claim_C9_witness :
    generate_response env9 state0 "q" "u" =
      .ok ([("classification", "CODE"),
            ("response", env9.respond "q" (state0.histories "u")
              (env9.retrieve "code" (ragQuery (state0.histories "u") "q") 5 ++
               env9.retrieve "answer" (ragQuery (state0.histories "u") "q") 2))],
           ⟨updateHistories state0.histories "u" "q", false⟩,
           [Call.search "code" (ragQuery (state0.histories "u") "q") 5,
            Call.search "answer" (ragQuery (state0.histories "u") "q") 2,
            Call.respond "q" (state0.histories "u")
              (env9.retrieve "code" (ragQuery (state0.histories "u") "q") 5 ++
               env9.retrieve "answer" (ragQuery (state0.histories "u") "q") 2)]) ∧
    (env9.retrieve "code" (ragQuery (state0.histories "u") "q") 5 ++
      env9.retrieve "answer" (ragQuery (state0.histories "u") "q") 2).length = 7 ∧
    (env9.retrieve "code" (ragQuery (state0.histories "u") "q") 5 ++
      env9.retrieve "answer" (ragQuery (state0.histories "u") "q") 2).take 5 =
      env9.retrieve "code" (ragQuery (state0.histories "u") "q") 5 ∧
    (env9.retrieve "code" (ragQuery (state0.histories "u") "q") 5 ++
      env9.retrieve "answer" (ragQuery (state0.histories "u") "q") 2).drop 5 =
      env9.retrieve "answer" (ragQuery (state0.histories "u") "q") 2 :=
  ⟨((claim_C9 env9 state0 "q" "u" rfl rfl).1 rfl).1,
   ((claim_C9 env9 state0 "q" "u" rfl rfl).1 rfl).2
     (by simp [env9]) (by simp [env9])⟩

end Flerhek
